import Mathlib

/-!
Shallow embedding of the core container types of the `misc_utils` repository:
`SlotMap` (src/slotmap.rs), `SparseList` (src/sparse_list.rs) and
`KeyedVec` (src/keyed_vec.rs).

Modelling conventions:
* Keys are modelled as `Nat`. The `Key` trait (src/lib.rs) has `from_id` and
  `id`, which for the instance `impl Key for usize` are both the identity, so
  key issuance and key use reduce to the underlying index.
* `Vec<T>` is modelled as `List T`; `Vec::pop` on the `free` list pops the
  last pushed element, so the model keeps the stack top at the head of the
  Lean list.
* Rust methods that mutate `&mut self` are modelled as functions returning the
  new container state (paired with the return value where there is one).
* Fatal conditions (index out of range, `Option::unwrap` on `None`, `usize`
  underflow of `used_count -= 1` under Rust's checked arithmetic) are modelled
  by an outer `Option`/`none` result: `none` means the call does not return
  normally.
-/

set_option autoImplicit false

namespace MiscUtils

universe u

/-- Embeds `enum Slot<T> { Value(T), Reserved, None }` (src/slotmap.rs). -/
inductive Slot (T : Type u) where
  | Value : T → Slot T
  | Reserved : Slot T
  | None : Slot T
deriving DecidableEq

/-- Embeds `Slot::take`: `std::mem::replace(self, Self::None)` followed by a
match, so the slot always ends up `None` and the old value is returned only
if the slot held one. Result is `(returned value, new slot state)`. -/
def Slot.take {T : Type u} : Slot T → Option T × Slot T
  | .Value t => (some t, .None)
  | _ => (none, .None)

/-- Embeds `Slot::insert`: overwrite the slot with `Value(data)`. -/
def Slot.insert {T : Type u} (_s : Slot T) (data : T) : Slot T :=
  .Value data

/-- Embeds `Slot::is_reserved`. -/
def Slot.is_reserved {T : Type u} : Slot T → Bool
  | .Reserved => true
  | _ => false

/-- Embeds `Slot::has_data`. -/
def Slot.has_data {T : Type u} : Slot T → Bool
  | .Value _ => true
  | _ => false

/-- Embeds `Slot::as_ref` (observed through the value). -/
def Slot.as_ref {T : Type u} : Slot T → Option T
  | .Value t => some t
  | _ => none

/-- Embeds `Slot::as_mut` (observed through the value; identical shape to
`as_ref` in a pure model). -/
def Slot.as_mut {T : Type u} : Slot T → Option T
  | .Value t => some t
  | _ => none

/-- Embeds `struct SlotMap<K, T> { inner: Vec<Slot<T>>, free: Vec<K> }`
(src/slotmap.rs). The head of `free` is the top of the `Vec` stack. -/
structure SlotMap (T : Type u) where
  inner : List (Slot T)
  free : List Nat
deriving DecidableEq

/-- Embeds `SlotMap::new`. -/
def SlotMap.new {T : Type u} : SlotMap T :=
  { inner := [], free := [] }

/-- Embeds `SlotMap::get_slot`: pop a key from the free list if possible,
otherwise append a fresh `Reserved` slot and return its index (the length
before the push). Returns `(key, new map)`. -/
def SlotMap.get_slot {T : Type u} (m : SlotMap T) : Nat × SlotMap T :=
  match m.free with
  | key :: rest => (key, { m with free := rest })
  | [] => (m.inner.length, { m with inner := m.inner ++ [Slot.Reserved] })

/-- Embeds `SlotMap::is_key_valid`: in bounds and the slot has data or is
reserved. -/
def SlotMap.is_key_valid {T : Type u} (m : SlotMap T) (k : Nat) : Bool :=
  if k < m.inner.length then
    let d := m.inner.getD k Slot.None
    d.has_data || d.is_reserved
  else
    false

/-- Embeds `SlotMap::insert`: acquire a slot via `get_slot`, then
`self.inner[key.id()].insert(data)`. The index is in range in every state
whose free-list entries are in range (in particular every reachable state),
so the write is modelled with `List.set`. -/
def SlotMap.insert {T : Type u} (m : SlotMap T) (data : T) : Nat × SlotMap T :=
  let p := m.get_slot
  (p.1, { p.2 with inner := p.2.inner.set p.1 (Slot.Value data) })

/-- Embeds `SlotMap::reserve_slot`: just `get_slot`. -/
def SlotMap.reserve_slot {T : Type u} (m : SlotMap T) : Nat × SlotMap T :=
  m.get_slot

/-- Embeds `SlotMap::insert_reserved`. `Except.error data` is Rust's
`Err(data)` (the value handed back); `Except.ok` carries the updated map. -/
def SlotMap.insert_reserved {T : Type u} (m : SlotMap T) (key : Nat) (data : T) :
    Except T (SlotMap T) :=
  if !(m.is_key_valid key) then
    Except.error data
  else if !((m.inner.getD key Slot.None).is_reserved) then
    Except.error data
  else
    Except.ok { m with inner := m.inner.set key (Slot.Value data) }

/-- Embeds `SlotMap::get`: `None` unless the key is valid and the slot holds
data. -/
def SlotMap.get {T : Type u} (m : SlotMap T) (key : Nat) : Option T :=
  if !(m.is_key_valid key) then none
  else (m.inner.getD key Slot.None).as_ref

/-- Embeds `SlotMap::get_mut` (observed through the value). -/
def SlotMap.get_mut {T : Type u} (m : SlotMap T) (key : Nat) : Option T :=
  if !(m.is_key_valid key) then none
  else (m.inner.getD key Slot.None).as_mut

/-- Embeds `SlotMap::remove`: validity check, then `Slot::take` on the slot.
Returns `(taken value, new map)`. Note the free list is left untouched. -/
def SlotMap.remove {T : Type u} (m : SlotMap T) (key : Nat) :
    Option T × SlotMap T :=
  if !(m.is_key_valid key) then (none, m)
  else
    let r := (m.inner.getD key Slot.None).take
    (r.1, { m with inner := m.inner.set key r.2 })

/-- Embeds `SlotMap::key_of_last_item`. -/
def SlotMap.key_of_last_item {T : Type u} (m : SlotMap T) : Option Nat :=
  if m.inner.isEmpty then none else some (m.inner.length - 1)

/-- Embeds `impl Index<K> for SlotMap`: `self.get(key).unwrap()`. A `none`
result models the `unwrap` panic (fatal error). -/
def SlotMap.index {T : Type u} (m : SlotMap T) (key : Nat) : Option T :=
  m.get key

/-- Embeds `impl IndexMut<K> for SlotMap`: `self.get_mut(key).unwrap()`.
A `none` result models the `unwrap` panic (fatal error). -/
def SlotMap.index_mut {T : Type u} (m : SlotMap T) (key : Nat) : Option T :=
  m.get_mut key

/-- Embeds `struct SparseList<K, T> { inner: Vec<Option<T>>, used_count: usize }`
(src/sparse_list.rs). -/
structure SparseList (T : Type u) where
  inner : List (Option T)
  used_count : Nat
deriving DecidableEq

/-- Embeds `SparseList::new`. -/
def SparseList.new {T : Type u} : SparseList T :=
  { inner := [], used_count := 0 }

/-- Embeds `SparseList::push`: append `Some(data)`, bump `used_count`, return
the key `inner.len() - 1` after the push (i.e. the pre-push length). -/
def SparseList.push {T : Type u} (l : SparseList T) (data : T) :
    Nat × SparseList T :=
  (l.inner.length,
   { inner := l.inner ++ [some data], used_count := l.used_count + 1 })

/-- Embeds `SparseList::remove`: `self.used_count -= 1; self.inner[index].take()`.
The outer `none` models a fatal error: `used_count` underflow (the decrement
runs first) or an out-of-range index. Otherwise returns the old value at
`index` and the list with a tombstone written there. -/
def SparseList.remove {T : Type u} (l : SparseList T) (index : Nat) :
    Option (Option T × SparseList T) :=
  if l.used_count = 0 then none
  else if index < l.inner.length then
    some (l.inner.getD index none,
      { inner := l.inner.set index none, used_count := l.used_count - 1 })
  else none

/-- Embeds `SparseList::pop`: `self.used_count -= 1; self.inner.pop().flatten()`.
The outer `none` models the fatal `used_count` underflow. `Vec::pop` on an
empty vector yields `None`, flattened to `None`, so the value returned is
`(getLast?).join` and the backing list loses its last element. -/
def SparseList.pop {T : Type u} (l : SparseList T) :
    Option (Option T × SparseList T) :=
  if l.used_count = 0 then none
  else
    some (l.inner.getLast?.join,
      { inner := l.inner.dropLast, used_count := l.used_count - 1 })

/-- Embeds the `SparseListIter` loop (src/sparse_list.rs): the sequence of
values produced by repeatedly calling `next`, i.e. the occupied entries in
backing order with tombstones skipped. -/
def SparseList.iter {T : Type u} (l : SparseList T) : List T :=
  l.inner.filterMap id

/-- Embeds `SparseList::slot_count`: `self.inner.len()`. -/
def SparseList.slot_count {T : Type u} (l : SparseList T) : Nat :=
  l.inner.length

/-- Embeds `impl Extend<T> for SparseList`: append the batch wrapped in `Some`
and add the number of appended items to `used_count`. -/
def SparseList.extend {T : Type u} (l : SparseList T) (values : List T) :
    SparseList T :=
  { inner := l.inner ++ values.map some,
    used_count := l.used_count + values.length }

/-- The number of positions of the backing list currently holding a value
(the quantity the spec says `used_count` tracks). -/
def SparseList.occupied {T : Type u} (l : SparseList T) : Nat :=
  l.inner.countP Option.isSome

/-- Embeds `struct KeyedVec<K, T> { inner: Vec<T> }` (src/keyed_vec.rs). -/
structure KeyedVec (T : Type u) where
  inner : List T
deriving DecidableEq

/-- Embeds `KeyedVec::new`. -/
def KeyedVec.new {T : Type u} : KeyedVec T :=
  { inner := [] }

/-- Embeds `KeyedVec::insert`: the key is the pre-insert length, then the
value is appended. Total: it never fails. -/
def KeyedVec.insert {T : Type u} (v : KeyedVec T) (data : T) :
    Nat × KeyedVec T :=
  (v.inner.length, { inner := v.inner ++ [data] })

/-- Embeds `KeyedVec::get`: `assert!(id < len)` then index. `none` models the
fatal assertion failure on an out-of-range key. -/
def KeyedVec.get {T : Type u} (v : KeyedVec T) (key : Nat) : Option T :=
  if h : key < v.inner.length then some v.inner[key] else none

/-- A whole sequence of `KeyedVec::insert` calls: returns the list of keys
issued, in order, together with the final container. -/
def KeyedVec.insertKeys {T : Type u} (v : KeyedVec T) :
    List T → List Nat × KeyedVec T
  | [] => ([], v)
  | x :: xs =>
    let p := v.insert x
    let q := p.2.insertKeys xs
    (p.1 :: q.1, q.2)

/-- Modelled from the spec: the serde derive on `Slot` is not part of src/
(the derive macro generates it), so the externally-tagged enum encoding is
modelled per the spec's words — each variant is a tag, `Reserved` and `None`
serialize as a tag with no payload, `Value` carries its payload. -/
def Slot.serialize {T : Type u} : Slot T → Nat × Option T
  | .Value t => (0, some t)
  | .Reserved => (1, none)
  | .None => (2, none)

/-- Modelled from the spec: deserialization of one slot reconstructs the
exact slot-state discriminant from the tag; a tag/payload mismatch is a
decode error (`none`). -/
def Slot.deserialize {T : Type u} : Nat × Option T → Option (Slot T)
  | (0, some t) => some (.Value t)
  | (1, none) => some .Reserved
  | (2, none) => some .None
  | _ => none

/-- Modelled from the spec: a `SlotMap` serializes as its backing ordered
collection of slots plus the free list. -/
def SlotMap.serialize {T : Type u} (m : SlotMap T) :
    List (Nat × Option T) × List Nat :=
  (m.inner.map Slot.serialize, m.free)

/-- Modelled from the spec: decode a sequence of serialized slots in order,
failing if any entry fails to decode. -/
def Slot.deserializeList {T : Type u} :
    List (Nat × Option T) → Option (List (Slot T))
  | [] => some []
  | e :: rest =>
    match Slot.deserialize e, Slot.deserializeList rest with
    | some s, some ss => some (s :: ss)
    | _, _ => none

/-- Modelled from the spec: deserializing a `SlotMap` decodes every slot
(failing if any slot fails to decode) and restores the free list. -/
def SlotMap.deserialize {T : Type u} (data : List (Nat × Option T) × List Nat) :
    Option (SlotMap T) :=
  match Slot.deserializeList data.1 with
  | some slots => some { inner := slots, free := data.2 }
  | none => none

/-! ### Helper lemmas -/

theorem Slot.as_ref_eq_some_iff {T : Type u} (s : Slot T) (v : T) :
    s.as_ref = some v ↔ s = Slot.Value v := by
  cases s <;> simp [Slot.as_ref]

theorem Slot.as_mut_eq_as_ref {T : Type u} (s : Slot T) :
    s.as_mut = s.as_ref := by
  cases s <;> rfl

theorem SlotMap.getD_of_ge {T : Type u} (m : SlotMap T) (k : Nat)
    (h : m.inner.length ≤ k) : m.inner.getD k Slot.None = Slot.None :=
  List.getD_eq_default _ _ h

theorem SlotMap.get_eq_some_iff {T : Type u} (m : SlotMap T) (k : Nat) (v : T) :
    m.get k = some v ↔ m.inner.getD k Slot.None = Slot.Value v := by
  unfold SlotMap.get SlotMap.is_key_valid
  by_cases hk : k < m.inner.length
  · cases hs : m.inner.getD k Slot.None <;>
      simp [hk, hs, Slot.has_data, Slot.is_reserved, Slot.as_ref]
  · have hd : m.inner[k]? = none := List.getElem?_eq_none (Nat.le_of_not_lt hk)
    simp [hk, hd]

theorem SlotMap.get_eq_none_iff {T : Type u} (m : SlotMap T) (k : Nat) :
    m.get k = none ↔ (m.inner.getD k Slot.None).has_data = false := by
  unfold SlotMap.get SlotMap.is_key_valid
  by_cases hk : k < m.inner.length
  · cases hs : m.inner.getD k Slot.None <;>
      simp [hk, hs, Slot.has_data, Slot.is_reserved, Slot.as_ref]
  · have hd : m.inner[k]? = none := List.getElem?_eq_none (Nat.le_of_not_lt hk)
    simp [hk, hd, Slot.has_data]

theorem SlotMap.get_mut_eq_get {T : Type u} (m : SlotMap T) (k : Nat) :
    m.get_mut k = m.get k := by
  unfold SlotMap.get_mut SlotMap.get
  rw [Slot.as_mut_eq_as_ref]

/-! ### Claim theorems -/

/-- C1: the claim says that after `remove(k)` returns a value, the next
`insert`/`reserve_slot` returns `k` again (LIFO reuse). The code's `remove`
never pushes the freed key onto the free list (no statement in slotmap.rs
ever pushes to `free`), so on the concrete run `insert 10; remove 0;
insert 20` the second insert appends a fresh slot and returns key 1, not 0.
This theorem evaluates the embedded code on that failing input. -/
theorem C1_removed_key_not_reused :
    ((SlotMap.new : SlotMap Nat).insert 10).1 = 0 ∧
    (((SlotMap.new : SlotMap Nat).insert 10).2.remove 0).1 = some 10 ∧
    ((((SlotMap.new : SlotMap Nat).insert 10).2.remove 0).2).free = [] ∧
    (((((SlotMap.new : SlotMap Nat).insert 10).2.remove 0).2).insert 20).1 = 1 ∧
    (((((SlotMap.new : SlotMap Nat).insert 10).2.remove 0).2).reserve_slot).1 = 1 := by
  decide

/-- C2: counterexample. `remove` on a key whose slot is `Reserved` returns
absence, but the container is NOT left unchanged: `Slot::take` replaces the
slot with `None`, so the reserved slot (created here by `reserve_slot` on a
fresh map) is flipped to `Empty`. -/
theorem C2_counterexample :
    ((((SlotMap.new : SlotMap Nat).reserve_slot).2.remove 0).1 = none) ∧
    ((((SlotMap.new : SlotMap Nat).reserve_slot).2.remove 0).2
      ≠ ((SlotMap.new : SlotMap Nat).reserve_slot).2) := by
  decide

/-- C2 (amended): whenever `remove` returns absence the free list is
untouched; if the slot at the key is not `Reserved` (key invalid or slot
already empty) the whole container is unchanged, while a `Reserved` slot is
flipped to `Empty` (everything else unchanged). -/
theorem C2_remove_absence_frame {T : Type u} (m : SlotMap T) (k : Nat)
    (h : (m.remove k).1 = none) :
    ((m.remove k).2).free = m.free ∧
    ((m.inner.getD k Slot.None).is_reserved = false → (m.remove k).2 = m) ∧
    ((m.inner.getD k Slot.None).is_reserved = true →
      (m.remove k).2 = { m with inner := m.inner.set k Slot.None }) := by
  unfold SlotMap.remove SlotMap.is_key_valid at *
  by_cases hk : k < m.inner.length
  · have hg : m.inner.getD k Slot.None = m.inner[k] :=
      List.getD_eq_getElem _ _ hk
    cases hs : m.inner[k] with
    | Value t =>
        exfalso
        simp [hk, hg, hs, Slot.has_data, Slot.is_reserved, Slot.take] at h
    | Reserved =>
        have hq : m.inner[k]? = some Slot.Reserved := by
          rw [List.getElem?_eq_getElem hk, hs]
        refine ⟨?_, ?_, ?_⟩
        · simp [hk, hg, hs, Slot.has_data, Slot.is_reserved, Slot.take]
        · intro hfalse
          simp [Slot.is_reserved, hg, hs, hq] at hfalse
        · intro _
          simp [hk, hg, hs, Slot.has_data, Slot.is_reserved, Slot.take]
    | None =>
        refine ⟨?_, ?_, ?_⟩ <;>
          simp [hk, hg, hs, Slot.has_data, Slot.is_reserved, Slot.take]
  · have hd : m.inner[k]? = none := List.getElem?_eq_none (Nat.le_of_not_lt hk)
    have hg : m.inner.getD k Slot.None = Slot.None :=
      List.getD_eq_default _ _ (Nat.le_of_not_lt hk)
    refine ⟨?_, ?_, ?_⟩ <;> simp [hk, hg, hd, Slot.is_reserved]

/-- C2 witness: the amended theorem applied to the concrete one-slot map
holding a `Reserved` slot, with key 0. -/
theorem C2_remove_absence_frame_witness :
    (((⟨[Slot.Reserved], []⟩ : SlotMap Nat).remove 0).1 = none) ∧
    ((((⟨[Slot.Reserved], []⟩ : SlotMap Nat).remove 0).2).free = ([] : List Nat)) :=
  ⟨by decide, (C2_remove_absence_frame (⟨[Slot.Reserved], []⟩ : SlotMap Nat) 0 (by decide)).1⟩

/-- C3: evaluation at the failing input. `SparseList::remove` runs
`self.used_count -= 1` unconditionally, before looking at the position, so
after `push 10; push 20; remove 0; remove 0` the counter is 0 while one
position (`some 20`) still holds a value: the claimed invariant
`used_count = number of occupied positions` is broken by the code. -/
theorem C3_used_count_diverges_from_occupancy :
    ((((SparseList.new : SparseList Nat).push 10).2.push 20).2).remove 0
      = some (some 10, { inner := [none, some 20], used_count := 1 }) ∧
    (({ inner := [none, some 20], used_count := 1 } : SparseList Nat)).remove 0
      = some (none, { inner := [none, some 20], used_count := 0 }) ∧
    (({ inner := [none, some 20], used_count := 0 } : SparseList Nat)).occupied = 1 ∧
    (({ inner := [none, some 20], used_count := 0 } : SparseList Nat)).used_count = 0 := by
  decide

/-- C4: `insert_reserved(key, value)` succeeds — transitioning the slot to
`Occupied(value)` — exactly when the key's slot is currently `Reserved`
(an out-of-range key reads as the `Slot.None` default, so the equation also
rules it out), and on every failure it returns `Err` carrying exactly the
value passed in. -/
theorem C4_insert_reserved_exact {T : Type u} (m : SlotMap T) (k : Nat) (data : T) :
    (m.inner.getD k Slot.None = Slot.Reserved →
      m.insert_reserved k data
        = Except.ok { m with inner := m.inner.set k (Slot.Value data) }) ∧
    (m.inner.getD k Slot.None ≠ Slot.Reserved →
      m.insert_reserved k data = Except.error data) := by
  unfold SlotMap.insert_reserved SlotMap.is_key_valid
  by_cases hk : k < m.inner.length
  · have hg : m.inner.getD k Slot.None = m.inner[k] :=
      List.getD_eq_getElem _ _ hk
    cases hs : m.inner[k] <;>
      simp [hk, hg, hs, Slot.has_data, Slot.is_reserved]
  · have hg : m.inner.getD k Slot.None = Slot.None :=
      List.getD_eq_default _ _ (Nat.le_of_not_lt hk)
    have hd : m.inner[k]? = none := List.getElem?_eq_none (Nat.le_of_not_lt hk)
    simp [hk, hg, hd, Slot.is_reserved]

/-- C5: counterexample. The one-position list whose only slot is a tombstone
is reachable (`push 17; remove 0`) and non-empty with a tombstone in last
position, but `pop` on it is a fatal error (`used_count -= 1` underflows from
0, modelled by the outer `none`) rather than returning absence and shrinking
the allocation. -/
theorem C5_counterexample :
    ((SparseList.new : SparseList Nat).push 17).2.remove 0
      = some (some 17, { inner := [none], used_count := 0 }) ∧
    (({ inner := [none], used_count := 0 } : SparseList Nat)).slot_count = 1 ∧
    (({ inner := [none], used_count := 0 } : SparseList Nat)).inner.getLast?
      = some none ∧
    (({ inner := [none], used_count := 0 } : SparseList Nat)).pop = none := by
  decide

/-- C5 (amended): on a non-empty list whose last position is a tombstone,
provided the occupancy counter is nonzero (so the unconditional decrement
does not underflow), `pop` returns absence and shrinks the allocated length
by exactly one. -/
theorem C5_pop_tombstone_shrinks {T : Type u} (l : SparseList T)
    (hc : l.used_count ≠ 0) (hlast : l.inner.getLast? = some none) :
    ∃ l', l.pop = some (none, l') ∧ l'.slot_count + 1 = l.slot_count := by
  refine ⟨{ inner := l.inner.dropLast, used_count := l.used_count - 1 }, ?_, ?_⟩
  · unfold SparseList.pop
    simp [hc, hlast]
  · have hne : l.inner ≠ [] := by
      intro h0
      rw [h0] at hlast
      simp at hlast
    have hlen : l.inner.length ≠ 0 := fun h0 => hne (List.eq_nil_of_length_eq_zero h0)
    unfold SparseList.slot_count
    simp only [List.length_dropLast]
    omega

/-- C5 witness: the amended theorem applied to the concrete list
`[some 1, none]` with counter 1. -/
theorem C5_pop_tombstone_shrinks_witness :
    (({ inner := [some 1, none], used_count := 1 } : SparseList Nat)).used_count ≠ 0 ∧
    (({ inner := [some 1, none], used_count := 1 } : SparseList Nat)).inner.getLast?
      = some none ∧
    ∃ l', (({ inner := [some 1, none], used_count := 1 } : SparseList Nat)).pop
        = some (none, l') ∧
      l'.slot_count + 1
        = (({ inner := [some 1, none], used_count := 1 } : SparseList Nat)).slot_count :=
  ⟨by decide, by decide,
    C5_pop_tombstone_shrinks
      ({ inner := [some 1, none], used_count := 1 } : SparseList Nat)
      (by decide) (by decide)⟩

/-- C6: `get` and `get_mut` return a value exactly for `Occupied` slots
(absence for out-of-range, `Empty` and `Reserved` keys), and the key just
issued by `reserve_slot` reads back as absent. The hypothesis is the spec's
free-list invariant — free entries reference `Empty` slots — which every
reachable state satisfies vacuously, since no code path ever pushes onto
`free`. -/
theorem C6_get_absent_unless_occupied {T : Type u} (m : SlotMap T) (k : Nat) (v : T)
    (hfree : ∀ j ∈ m.free, m.inner.getD j Slot.None = Slot.None) :
    (m.get k = some v ↔ m.inner.getD k Slot.None = Slot.Value v) ∧
    (m.get_mut k = some v ↔ m.inner.getD k Slot.None = Slot.Value v) ∧
    ((m.reserve_slot).2.get (m.reserve_slot).1 = none) := by
  refine ⟨SlotMap.get_eq_some_iff m k v, ?_, ?_⟩
  · rw [SlotMap.get_mut_eq_get]
    exact SlotMap.get_eq_some_iff m k v
  · unfold SlotMap.reserve_slot SlotMap.get_slot
    cases hf : m.free with
    | nil =>
        rw [SlotMap.get_eq_none_iff]
        have hr : (m.inner ++ [Slot.Reserved]).getD m.inner.length Slot.None
            = Slot.Reserved := by
          rw [List.getD_append_right _ _ _ _ (le_refl _)]
          simp [List.getD]
        simp only []
        simp [hr, Slot.has_data]
    | cons j rest =>
        rw [SlotMap.get_eq_none_iff]
        have hj : m.inner.getD j Slot.None = Slot.None :=
          hfree j (by rw [hf]; exact List.mem_cons_self _ _)
        have hj' : m.inner[j]?.getD Slot.None = Slot.None := by
          rw [← List.getD_eq_getElem?_getD]
          exact hj
        simp [hj, hj', Slot.has_data]

/-- C6 witness: the theorem applied to the one-slot occupied map, key 0,
value 3 (its free list is empty, so the invariant holds vacuously). -/
theorem C6_get_absent_unless_occupied_witness :
    ((((⟨[Slot.Value 3], []⟩ : SlotMap Nat)).get 0 = some 3) ↔
      (((⟨[Slot.Value 3], []⟩ : SlotMap Nat)).inner.getD 0 Slot.None
        = Slot.Value 3)) ∧
    ((((⟨[Slot.Value 3], []⟩ : SlotMap Nat)).get_mut 0 = some 3) ↔
      (((⟨[Slot.Value 3], []⟩ : SlotMap Nat)).inner.getD 0 Slot.None
        = Slot.Value 3)) ∧
    ((((⟨[Slot.Value 3], []⟩ : SlotMap Nat)).reserve_slot).2.get
      (((⟨[Slot.Value 3], []⟩ : SlotMap Nat)).reserve_slot).1 = none) :=
  C6_get_absent_unless_occupied (⟨[Slot.Value 3], []⟩ : SlotMap Nat) 0 3 (by simp)

theorem KeyedVec.insertKeys_inner {T : Type u} (v : KeyedVec T) (vs : List T) :
    ((v.insertKeys vs).2).inner = v.inner ++ vs := by
  induction vs generalizing v with
  | nil => simp [KeyedVec.insertKeys]
  | cons x xs ih =>
      simp [KeyedVec.insertKeys, KeyedVec.insert, ih]

theorem KeyedVec.insertKeys_keys {T : Type u} (v : KeyedVec T) (vs : List T) :
    (v.insertKeys vs).1 = List.range' v.inner.length vs.length := by
  induction vs generalizing v with
  | nil => simp [KeyedVec.insertKeys]
  | cons x xs ih =>
      simp [KeyedVec.insertKeys, KeyedVec.insert, ih, List.range'_succ]

/-- C7: for every sequence of `KeyedVec::insert` calls, the i-th insert
returns the key `initial length + i` (the pre-insert length at that step;
insert is total, it never fails), `get` afterwards returns the originally
inserted value for every key issued, and the final length is the initial
length plus the number of inserts (length only increases). -/
theorem C7_keyed_vec_insert_get {T : Type u} (v : KeyedVec T) (vs : List T)
    (i : Nat) (h : i < vs.length) :
    ((v.insertKeys vs).1)[i]? = some (v.inner.length + i) ∧
    ((v.insertKeys vs).2).get (v.inner.length + i) = some vs[i] ∧
    ((v.insertKeys vs).2).inner.length = v.inner.length + vs.length := by
  refine ⟨?_, ?_, ?_⟩
  · rw [KeyedVec.insertKeys_keys]
    have hl : i < (List.range' v.inner.length vs.length).length := by
      rw [List.length_range']
      exact h
    rw [List.getElem?_eq_getElem hl]
    simp
  · have hinner := KeyedVec.insertKeys_inner v vs
    unfold KeyedVec.get
    have hlt : v.inner.length + i < ((v.insertKeys vs).2).inner.length := by
      rw [hinner, List.length_append]
      omega
    rw [dif_pos hlt]
    congr 1
    simp only [hinner]
    rw [List.getElem_append_right]
    · congr 1
      omega
    · omega
  · rw [KeyedVec.insertKeys_inner, List.length_append]

/-- C7 witness: the theorem applied to the one-element vector `[9]`, the
insert sequence `[5, 7]` and index 1. -/
theorem C7_keyed_vec_insert_get_witness :
    (1 < ([5, 7] : List Nat).length) ∧
    (((⟨[9]⟩ : KeyedVec Nat).insertKeys [5, 7]).1)[1]? = some 2 ∧
    (((⟨[9]⟩ : KeyedVec Nat).insertKeys [5, 7]).2).get 2 = some 7 ∧
    (((⟨[9]⟩ : KeyedVec Nat).insertKeys [5, 7]).2).inner.length = 3 :=
  ⟨by decide,
    (C7_keyed_vec_insert_get (⟨[9]⟩ : KeyedVec Nat) [5, 7] 1 (by decide)).1,
    (C7_keyed_vec_insert_get (⟨[9]⟩ : KeyedVec Nat) [5, 7] 1 (by decide)).2.1,
    (C7_keyed_vec_insert_get (⟨[9]⟩ : KeyedVec Nat) [5, 7] 1 (by decide)).2.2⟩

/-- C8: after `push a; push b; push c; remove 1` on a fresh `SparseList`,
the removal succeeds returning `b`, iteration yields exactly `[a, c]` in that
order (the tombstone at position 1 is skipped), the occupancy counter is 2
and the allocated length is 3. -/
theorem C8_iterate_after_remove {T : Type u} (a b c : T) :
    ∃ l', ((((SparseList.new : SparseList T).push a).2.push b).2.push c).2.remove 1
        = some (some b, l') ∧
      l'.iter = [a, c] ∧ l'.used_count = 2 ∧ l'.slot_count = 3 :=
  ⟨{ inner := [some a, none, some c], used_count := 2 }, rfl, rfl, rfl, rfl⟩

theorem Slot.deserialize_serialize {T : Type u} (s : Slot T) :
    Slot.deserialize s.serialize = some s := by
  cases s <;> rfl

theorem Slot.deserializeList_serialize {T : Type u} (l : List (Slot T)) :
    Slot.deserializeList (l.map Slot.serialize) = some l := by
  induction l with
  | nil => rfl
  | cons s rest ih =>
      simp [Slot.deserializeList, Slot.deserialize_serialize, ih]

/-- C9: serializing and then deserializing a `SlotMap` reproduces it exactly
— in particular every slot keeps its exact state discriminant (`Reserved`
stays `Reserved`, never `Empty` or an occupied default) and the free list is
preserved. The encoding is the spec-modelled externally-tagged variant
encoding of the serde derive. -/
theorem C9_slotmap_roundtrip {T : Type u} (m : SlotMap T) :
    SlotMap.deserialize m.serialize = some m := by
  unfold SlotMap.deserialize SlotMap.serialize
  rw [Slot.deserializeList_serialize]

/-- C10: bracket indexing (`Index`/`IndexMut`) unwraps `get`/`get_mut`, so it
is a fatal error (the modelled `unwrap` panic, `none`) exactly when the key's
slot is not `Occupied` — out of range, `Empty` or `Reserved` — unlike the
soft-failure `get`/`get_mut` it is built from. -/
theorem C10_index_fatal_unless_occupied {T : Type u} (m : SlotMap T) (k : Nat) :
    (m.index k = none ↔ (m.inner.getD k Slot.None).has_data = false) ∧
    (m.index_mut k = none ↔ (m.inner.getD k Slot.None).has_data = false) ∧
    m.index k = m.get k ∧ m.index_mut k = m.get_mut k := by
  refine ⟨SlotMap.get_eq_none_iff m k, ?_, rfl, rfl⟩
  unfold SlotMap.index_mut
  rw [SlotMap.get_mut_eq_get]
  exact SlotMap.get_eq_none_iff m k

end MiscUtils
